import Mathlib

/-!
Verification of the stm32loader serial bootloader driver
(`src/stm32loader.py`, class `CommandInterface`).

The protocol engine is embedded shallowly:

* pure byte computations (`_encode_addr`, `_cast_to_two_bytes`, the
  `(x - 1) & 0xFF` length/count bytes, the running XOR checksums) become
  Lean functions on `Nat` (bytes are natural numbers, with `% 256` /
  Python `& 0xFF` made explicit, via `Int` where Python's signed
  arithmetic matters);
* the side effects a command performs on its success path (every
  `sp.write`, `time.sleep`, RTS/DTR line change, timeout assignment and
  ACK wait, in program order) become a list of `Ev` events;
* the chunking loops of `readMemory` / `writeMemory` become recursive
  functions on the loop variables, mirroring the Python loop bodies;
* `_wait_for_ask`, which either returns 1 or raises `CmdException`,
  becomes a total classification function of the byte read (with
  `Option` modelling a read timeout / port error), and the one place
  whose state matters across an exception (`cmdExtendedEraseMemory`'s
  timeout save/restore) is modelled with `Except`, the error carrying
  the serial-port state at raise time.
-/

namespace Stm32

/-- One observable side effect of the driver on its serial port, in the
order the Python code performs it.  `wr bs` is `self.sp.write(bytes)`;
`waitAck info` is a call to `_wait_for_ask(info)`; `sleepMs` is
`time.sleep` (in milliseconds); `rstLine` / `boot0Line` are the
`rst(state)` / `boot0(state)` logical line writes; `setTimeout` is an
assignment to `self.sp.timeout` (in seconds). -/
inductive Ev where
  | wr (bs : List Nat)
  | waitAck (info : String)
  | sleepMs (ms : Nat)
  | rstLine (state : Nat)
  | boot0Line (state : Nat)
  | setTimeout (seconds : Nat)
  deriving DecidableEq, Repr

/-- The bytes actually placed on the wire by a trace: the concatenation
of all `Ev.wr` payloads, in order. -/
def writtenBytes (evs : List Ev) : List Nat :=
  (evs.filterMap fun e =>
    match e with
    | .wr bs => some bs
    | _ => none).flatten

/-- Python `"{:X}".format(n)`: the uppercase hexadecimal digits of `n`
(used as the `_wait_for_ask` info string in `cmdGeneric`). -/
def hexInfo (n : Nat) : String :=
  (Nat.toDigits 16 n).asString.toUpper

/-- Python `(n - 1) & 0xFF` on a Python int `n ≥ 0`, as used for the
length byte of `cmdWriteMemory` and the sector-count byte of
`cmdEraseMemory` / `cmdWriteProtect`.  Computed in `Int` because Python
subtraction can go negative (`n = 0` gives `0xFF`). -/
def subOneByte (n : Nat) : Nat :=
  (((n : Int) - 1) % 256).toNat

/-- `CommandInterface._encode_addr` (src/stm32loader.py:211-217): the
four bytes of `addr`, most significant first, followed by their XOR. -/
def encode_addr (addr : Nat) : List Nat :=
  let byte3 := (addr >>> 0) % 256
  let byte2 := (addr >>> 8) % 256
  let byte1 := (addr >>> 16) % 256
  let byte0 := (addr >>> 24) % 256
  let crc := byte0 ^^^ byte1 ^^^ byte2 ^^^ byte3
  [byte0, byte1, byte2, byte3, crc]

/-- `CommandInterface._cast_to_two_bytes` (src/stm32loader.py:318-319):
`bytearray([value >> 8, value & 0xff])`. -/
def cast_to_two_bytes (value : Nat) : List Nat :=
  [value >>> 8, value % 256]

/-- `CommandInterface.cmdGeneric` (src/stm32loader.py:170-173) on its
success path: write the opcode, write its complement, wait for ACK. -/
def cmdGenericTrace (cmd : Nat) : List Ev :=
  [.wr [cmd], .wr [cmd ^^^ 0xFF], .waitAck (hexInfo cmd)]

/-- The common `crc = seed; for c in xs: crc = crc ^ c; write(c)` loop of
`cmdWriteMemory` (src/stm32loader.py:251-254), `cmdEraseMemory`
(src/stm32loader.py:274-277) and `cmdWriteProtect`
(src/stm32loader.py:325-328): returns the write events of the loop body
and the final accumulated checksum. -/
def xorWriteLoop (crc : Nat) : List Nat → List Ev × Nat
  | [] => ([], crc)
  | c :: rest =>
    let step := xorWriteLoop (crc ^^^ c) rest
    (.wr [c] :: step.1, step.2)

/-- `CommandInterface.cmdWriteMemory` (src/stm32loader.py:241-259) on its
success path (`assert len(data) <= 256` is a precondition of the Python
code, not enforced here): generic frame 0x31, address block, ACK, length
byte `(len(data) - 1) & 0xFF`, the data bytes (accumulating
`crc = 0xFF ^ ...`), the checksum byte, final ACK. -/
def cmdWriteMemoryTrace (addr : Nat) (data : List Nat) : List Ev :=
  let lng := subOneByte data.length
  let body := xorWriteLoop 0xFF data
  cmdGenericTrace 0x31
    ++ [.wr (encode_addr addr), .waitAck "0x31 address failed", .wr [lng]]
    ++ body.1
    ++ [.wr [body.2], .waitAck "0x31 programming failed"]

/-- The sector loop of `CommandInterface.cmdExtendedEraseMemory`
(src/stm32loader.py:299-313): two-byte count `len(sectors) - 1`, then
each sector as two bytes, XOR-accumulating every individual byte from a
`0x00` seed, then the checksum byte. -/
def extSectorLoop (crc : Nat) : List Nat → List Ev × Nat
  | [] => ([], crc)
  | c :: rest =>
    let page := cast_to_two_bytes c
    let step := extSectorLoop ((crc ^^^ page[0]!) ^^^ page[1]!) rest
    (.wr page :: step.1, step.2)

/-- `CommandInterface.cmdExtendedEraseMemory` (src/stm32loader.py:284-316)
on its success path.  `timeout0` is the value of `self.sp.timeout` on
entry; the global branch saves it, sets the timeout to 30 s for the ACK
wait, and writes it back afterwards. -/
def cmdExtendedEraseMemoryTrace (timeout0 : Nat) (sectors : Option (List Nat)) :
    List Ev :=
  cmdGenericTrace 0x44 ++
    match sectors with
    | none =>
      [.wr [0xFF], .wr [0xFF], .wr [0x00],
       .setTimeout 30, .waitAck "0x44 erasing failed", .setTimeout timeout0]
    | some secs =>
      let sec_len := cast_to_two_bytes (secs.length - 1)
      let crc0 := (0x00 ^^^ sec_len[0]!) ^^^ sec_len[1]!
      let body := extSectorLoop crc0 secs
      .wr sec_len :: body.1 ++ [.wr [body.2], .waitAck "0x44 sector erasing failed"]

/-- `CommandInterface.cmdEraseMemory` (src/stm32loader.py:261-282) on its
success path.  `extended_erase` is the session flag set by `cmdGet`;
when it is set the call is forwarded verbatim to
`cmdExtendedEraseMemory`.  The legacy global branch writes `0xFF` then
`0x00`; the legacy sector branch writes the count byte
`(len(sectors) - 1) & 0xFF`, each sector byte, and a checksum
accumulated from a `0xFF` seed over the sector bytes only. -/
def cmdEraseMemoryTrace (extended_erase : Bool) (timeout0 : Nat)
    (sectors : Option (List Nat)) : List Ev :=
  if extended_erase then cmdExtendedEraseMemoryTrace timeout0 sectors
  else
    cmdGenericTrace 0x43 ++
      (match sectors with
       | none => [.wr [0xFF], .wr [0x00]]
       | some secs =>
         let body := xorWriteLoop 0xFF secs
         .wr [subOneByte secs.length] :: body.1 ++ [.wr [body.2]])
      ++ [.waitAck "0x43 erasing failed"]

/-- `CommandInterface.reset` (src/stm32loader.py:148-154):
`rst(0)`, sleep 100 ms, `rst(1)`, sleep 500 ms. -/
def resetTrace : List Ev :=
  [.rstLine 0, .sleepMs 100, .rstLine 1, .sleepMs 500]

/-- `CommandInterface.initChip` (src/stm32loader.py:156-163) on its
success path: `boot0(0)`, then `reset()`, then write the sync byte
`0x7F`, then the `"Syncro"` ACK wait. -/
def initChipTrace : List Ev :=
  .boot0Line 0 :: resetTrace ++ [.wr [0x7F], .waitAck "Syncro"]

/-- The three ways `CommandInterface._wait_for_ask`
(src/stm32loader.py:130-146) can end: return 1 (`ok`), raise
`CmdException("NACK ...")` (`nack`), or raise one of the two remaining
`CmdException`s — unknown response byte, or a failed/timed-out read
(`protocolError`). -/
inductive AckResult where
  | ok
  | nack
  | protocolError
  deriving DecidableEq, Repr

/-- `CommandInterface._wait_for_ask` as a classification of what the
one-byte read produced: `none` models `self.sp.read()` raising or
returning no byte (timeout), `some b` models reading byte `b`. -/
def wait_for_ask (input : Option Nat) : AckResult :=
  match input with
  | none => .protocolError
  | some ask =>
    if ask = 0x79 then .ok
    else if ask = 0x1F then .nack
    else .protocolError

/-- The mutable serial-port state that survives a `CmdException`: the
`self.sp.timeout` field. -/
structure Serial where
  timeout : Nat
  deriving DecidableEq, Repr

/-- The global (mass-erase) branch of `cmdExtendedEraseMemory`
(src/stm32loader.py:287-298), state-accurately: after the three payload
bytes, `tmp = self.sp.timeout; self.sp.timeout = 30`, then the ACK wait
on `ackInput`; only when the wait returns does `self.sp.timeout = tmp`
run — a raised `CmdException` propagates with the timeout still 30
(the error value carries the port state at raise time). -/
def cmdExtendedEraseGlobalRun (sp : Serial) (ackInput : Option Nat) :
    Except Serial Serial :=
  let tmp := sp.timeout
  let sp1 : Serial := { sp with timeout := 30 }
  match wait_for_ask ackInput with
  | .ok => .ok { sp1 with timeout := tmp }
  | _ => .error sp1

/-- The frame loop of `CommandInterface.readMemory`
(src/stm32loader.py:365-385): the `(addr, lng)` arguments of the
`cmdReadMemory` calls it makes, in order — `(addr, 256)` while more than
256 bytes remain, then one final `(addr, lng)` frame. -/
def readMemoryFrames (addr lng : Nat) : List (Nat × Nat) :=
  if 256 < lng then (addr, 256) :: readMemoryFrames (addr + 256) (lng - 256)
  else [(addr, lng)]
termination_by lng

/-- The data built by `CommandInterface.readMemory`
(src/stm32loader.py:365-385), with `dev a n` standing for the bytes
`cmdReadMemory(a, n)` returns: `data + cmdReadMemory(addr, 256)` while
more than 256 bytes remain, then the final sub-256 read appended. -/
def readMemoryData (dev : Nat → Nat → List Nat) (addr lng : Nat) : List Nat :=
  if 256 < lng then dev addr 256 ++ readMemoryData dev (addr + 256) (lng - 256)
  else dev addr lng
termination_by lng

/-- The loop of `CommandInterface.writeMemory` (src/stm32loader.py:387-409)
over the mutable locals `(addr, offs, lng)` with `data` the caller's
buffer (`lng = len(data) - offs` holds at every call).  Returns the
`(addr, chunk)` arguments of the `cmdWriteMemory` calls in order, and
the final contents of the caller's buffer: while `lng > 256` the chunk
is the slice `data[offs:offs+256]`; at the end the buffer is extended
with `(256 - lng)` bytes of `0xFF` and the last slice is sent. -/
def writeMemoryAux (addr : Nat) (data : List Nat) (offs lng : Nat) :
    List (Nat × List Nat) × List Nat :=
  if 256 < lng then
    let rest := writeMemoryAux (addr + 256) data (offs + 256) (lng - 256)
    ((addr, (data.drop offs).take 256) :: rest.1, rest.2)
  else
    let data2 := data ++ List.replicate (256 - lng) 0xFF
    ([(addr, (data2.drop offs).take 256)], data2)
termination_by lng

/-- `CommandInterface.writeMemory` (src/stm32loader.py:387-409): the
frames issued and the final state of the caller's buffer. -/
def writeMemory (addr : Nat) (data : List Nat) :
    List (Nat × List Nat) × List Nat :=
  writeMemoryAux addr data 0 data.length

/-! ### Helper lemmas -/

theorem xorWriteLoop_spec (xs : List Nat) : ∀ crc : Nat,
    xorWriteLoop crc xs = (xs.map fun c => Ev.wr [c], xs.foldl (· ^^^ ·) crc) := by
  induction xs with
  | nil => intro crc; rfl
  | cons c rest ih =>
    intro crc
    simp only [xorWriteLoop, ih, List.map_cons, List.foldl_cons]

theorem writtenBytes_append (a b : List Ev) :
    writtenBytes (a ++ b) = writtenBytes a ++ writtenBytes b := by
  simp [writtenBytes, List.filterMap_append]

theorem writtenBytes_wr_map (xs : List Nat) :
    writtenBytes (xs.map fun c => Ev.wr [c]) = xs := by
  induction xs with
  | nil => rfl
  | cons c rest ih =>
    simp only [List.map_cons, writtenBytes, List.filterMap_cons, List.flatten_cons] at ih ⊢
    rw [ih]
    rfl

theorem writtenBytes_cons_wr (bs : List Nat) (evs : List Ev) :
    writtenBytes (Ev.wr bs :: evs) = bs ++ writtenBytes evs := by
  simp [writtenBytes, List.filterMap_cons]

theorem subOneByte_eq (n : Nat) (h1 : 1 ≤ n) (h2 : n ≤ 256) :
    subOneByte n = n - 1 := by
  simp only [subOneByte]
  omega

/-! ### Claim C2 — legacy sector-erase payload -/

/-- C2 counterexample: for sectors `[2, 5]` the legacy erase writes the
payload `[0x01, 0x02, 0x05, 0xF8]` — the trailing checksum is `0xF8`
(the XOR of the seed `0xFF` and the sector bytes), not
`0x01 XOR 0x02 XOR 0x05 = 0x06` as the claim states. -/
theorem legacy_sector_erase_counterexample :
    cmdEraseMemoryTrace false 5 (some [2, 5]) =
      cmdGenericTrace 0x43 ++
        [Ev.wr [0x01], Ev.wr [0x02], Ev.wr [0x05], Ev.wr [0xF8],
         Ev.waitAck "0x43 erasing failed"] ∧
    (0xF8 : Nat) ≠ 0x01 ^^^ 0x02 ^^^ 0x05 :=
  ⟨rfl, by decide⟩

/-- C2 (amended): for every non-empty sector list, the legacy erase
command (opcode 0x43) writes after its acknowledged generic frame the
count byte `(n-1) & 0xFF`, each sector id as one byte, and a trailing
checksum equal to the XOR of the constant seed `0xFF` with all sector
bytes — the count byte is not part of the checksum; for sectors
`[2, 5]` the payload is `[0x01, 0x02, 0x05, 0xF8]`. -/
theorem legacy_sector_erase_payload (timeout0 : Nat) (secs : List Nat)
    (h1 : secs ≠ []) :
    ∃ evs, cmdEraseMemoryTrace false timeout0 (some secs) =
        cmdGenericTrace 0x43 ++ evs ++ [Ev.waitAck "0x43 erasing failed"] ∧
      writtenBytes evs =
        subOneByte secs.length :: (secs ++ [secs.foldl (· ^^^ ·) 0xFF]) ∧
      (secs = [2, 5] → writtenBytes evs = [0x01, 0x02, 0x05, 0xF8]) := by
  refine ⟨Ev.wr [subOneByte secs.length] ::
      ((secs.map fun c => Ev.wr [c]) ++ [Ev.wr [secs.foldl (· ^^^ ·) 0xFF]]),
    ?_, ?_, ?_⟩
  · simp [cmdEraseMemoryTrace, xorWriteLoop_spec]
  · rw [writtenBytes_cons_wr, writtenBytes_append, writtenBytes_wr_map,
      writtenBytes_cons_wr]
    simp [writtenBytes]
  · intro hs
    subst hs
    rfl

/-- Witness for C2's amended theorem at sectors `[2, 5]`. -/
theorem legacy_sector_erase_payload_witness :
    ∃ evs, cmdEraseMemoryTrace false 5 (some [2, 5]) =
        cmdGenericTrace 0x43 ++ evs ++ [Ev.waitAck "0x43 erasing failed"] ∧
      writtenBytes evs =
        subOneByte ([2, 5] : List Nat).length ::
          ([2, 5] ++ [([2, 5] : List Nat).foldl (· ^^^ ·) 0xFF]) ∧
      (([2, 5] : List Nat) = [2, 5] → writtenBytes evs = [0x01, 0x02, 0x05, 0xF8]) :=
  legacy_sector_erase_payload 5 [2, 5] (by decide)

/-! ### Claim C3 — write-memory frame payload -/

/-- C3 counterexample: for the one-byte payload `[0x00]` the write
command transmits length byte `0x00`, the payload byte, and checksum
`0xFF` — not `0x00 XOR 0x00 = 0x00` as the claimed
length-byte-seeded XOR would give. -/
theorem write_frame_counterexample :
    cmdWriteMemoryTrace 0 [0] =
      cmdGenericTrace 0x31 ++
        [Ev.wr (encode_addr 0), Ev.waitAck "0x31 address failed",
         Ev.wr [0x00], Ev.wr [0x00], Ev.wr [0xFF],
         Ev.waitAck "0x31 programming failed"] ∧
    (0xFF : Nat) ≠ 0x00 ^^^ 0x00 :=
  ⟨rfl, by decide⟩

/-- C3 (amended): for every payload of length 1..256, the underlying
write-memory command (opcode 0x31) transmits after the acknowledged
address block a length byte equal to `len - 1`, the payload bytes, and
a trailing checksum equal to the XOR of the constant seed `0xFF` with
all payload bytes; this coincides with the XOR of the length byte and
the payload bytes exactly for full 256-byte payloads (length byte
`0xFF`), the only size `writeMemory` ever sends. -/
theorem write_frame_payload (addr : Nat) (data : List Nat)
    (h1 : data ≠ []) (h2 : data.length ≤ 256) :
    ∃ evs, cmdWriteMemoryTrace addr data =
        cmdGenericTrace 0x31 ++
          [Ev.wr (encode_addr addr), Ev.waitAck "0x31 address failed"] ++
          evs ++ [Ev.waitAck "0x31 programming failed"] ∧
      writtenBytes evs =
        (data.length - 1) :: (data ++ [data.foldl (· ^^^ ·) 0xFF]) ∧
      (data.length = 256 →
        data.foldl (· ^^^ ·) 0xFF = data.foldl (· ^^^ ·) (data.length - 1)) := by
  refine ⟨Ev.wr [subOneByte data.length] ::
      ((data.map fun c => Ev.wr [c]) ++ [Ev.wr [data.foldl (· ^^^ ·) 0xFF]]),
    ?_, ?_, ?_⟩
  · simp [cmdWriteMemoryTrace, xorWriteLoop_spec]
  · rw [writtenBytes_cons_wr, writtenBytes_append, writtenBytes_wr_map,
      writtenBytes_cons_wr]
    rw [subOneByte_eq data.length (List.length_pos.mpr h1) h2]
    simp [writtenBytes]
  · intro h256
    rw [h256]

/-- Witness for C3's amended theorem at address 0 and payload `[1, 2]`. -/
theorem write_frame_payload_witness :
    ∃ evs, cmdWriteMemoryTrace 0 [1, 2] =
        cmdGenericTrace 0x31 ++
          [Ev.wr (encode_addr 0), Ev.waitAck "0x31 address failed"] ++
          evs ++ [Ev.waitAck "0x31 programming failed"] ∧
      writtenBytes evs =
        (([1, 2] : List Nat).length - 1) ::
          ([1, 2] ++ [([1, 2] : List Nat).foldl (· ^^^ ·) 0xFF]) ∧
      (([1, 2] : List Nat).length = 256 →
        ([1, 2] : List Nat).foldl (· ^^^ ·) 0xFF =
          ([1, 2] : List Nat).foldl (· ^^^ ·) (([1, 2] : List Nat).length - 1)) :=
  write_frame_payload 0 [1, 2] (by decide) (by decide)

/-! ### Claim C4 — `_wait_for_ask` classification -/

/-- C4: every received acknowledgement byte is classified into exactly
three outcomes — `0x79` succeeds, `0x1F` fails as a NACK, every other
byte as well as a failed or timed-out read fails as a protocol error —
and no input other than the byte `0x79` is ever treated as success. -/
theorem wait_for_ask_classification (b : Nat) :
    (wait_for_ask (some b) = AckResult.ok ↔ b = 0x79) ∧
    (wait_for_ask (some b) = AckResult.nack ↔ b = 0x1F) ∧
    (b ≠ 0x79 → b ≠ 0x1F → wait_for_ask (some b) = AckResult.protocolError) ∧
    wait_for_ask none = AckResult.protocolError ∧
    (∀ input : Option Nat, wait_for_ask input = AckResult.ok → input = some 0x79) := by
  refine ⟨?_, ?_, ?_, rfl, ?_⟩
  · simp only [wait_for_ask]
    split_ifs with h1 h2 <;> simp_all
  · simp only [wait_for_ask]
    split_ifs with h1 h2 <;> simp_all
  · intro h1 h2
    simp only [wait_for_ask, if_neg h1, if_neg h2]
  · intro input h
    match input with
    | none => exact absurd h (by simp [wait_for_ask])
    | some a =>
      simp only [wait_for_ask] at h
      split_ifs at h with h1 h2
      simp_all

/-- Witness for C4 at the concrete bytes 0x33, 0x79, 0x1F. -/
theorem wait_for_ask_classification_witness :
    wait_for_ask (some 0x33) = AckResult.protocolError ∧
    wait_for_ask (some 0x79) = AckResult.ok ∧
    wait_for_ask (some 0x1F) = AckResult.nack :=
  ⟨(wait_for_ask_classification 0x33).2.2.1 (by decide) (by decide),
   (wait_for_ask_classification 0x79).1.mpr rfl,
   (wait_for_ask_classification 0x1F).2.1.mpr rfl⟩

/-! ### Claim C5 — readMemory chunking -/

theorem readMemoryFrames_length (lng : Nat) :
    ∀ addr, 1 ≤ lng → (readMemoryFrames addr lng).length = (lng + 255) / 256 := by
  induction lng using Nat.strong_induction_on with
  | _ lng ih =>
    intro addr h1
    rw [readMemoryFrames]
    by_cases hl : 256 < lng
    · rw [if_pos hl]
      have hrec := ih (lng - 256) (by omega) (addr + 256) (by omega)
      simp only [List.length_cons, hrec]
      omega
    · rw [if_neg hl]
      simp only [List.length_cons, List.length_nil]
      omega

theorem readMemoryFrames_le (lng : Nat) :
    ∀ addr, ∀ f ∈ readMemoryFrames addr lng, f.2 ≤ 256 := by
  induction lng using Nat.strong_induction_on with
  | _ lng ih =>
    intro addr f hf
    rw [readMemoryFrames] at hf
    by_cases hl : 256 < lng
    · rw [if_pos hl] at hf
      rcases List.mem_cons.mp hf with h | h
      · rw [h]
      · exact ih (lng - 256) (by omega) (addr + 256) f h
    · rw [if_neg hl] at hf
      rcases List.mem_singleton.mp hf with rfl
      simpa using Nat.le_of_not_lt hl

theorem readMemoryData_length (dev : Nat → Nat → List Nat)
    (hdev : ∀ a n, n ≤ 256 → (dev a n).length = n) (lng : Nat) :
    ∀ addr, (readMemoryData dev addr lng).length = lng := by
  induction lng using Nat.strong_induction_on with
  | _ lng ih =>
    intro addr
    rw [readMemoryData]
    by_cases hl : 256 < lng
    · rw [if_pos hl]
      rw [List.length_append, hdev addr 256 (by omega), ih (lng - 256) (by omega) (addr + 256)]
      omega
    · rw [if_neg hl]
      exact hdev addr lng (by omega)

/-- C5: for every requested length in 1..100000, `readMemory` issues
exactly `ceil(length / 256)` underlying read frames, each requesting at
most 256 bytes, and — assuming each underlying `cmdReadMemory(a, n)`
returns exactly `n` bytes — the concatenation of the results in address
order has exactly the requested length. -/
theorem readMemory_chunking (dev : Nat → Nat → List Nat) (addr lng : Nat)
    (h1 : 1 ≤ lng) (_h2 : lng ≤ 100000)
    (hdev : ∀ a n, n ≤ 256 → (dev a n).length = n) :
    (readMemoryFrames addr lng).length = (lng + 255) / 256 ∧
    (∀ f ∈ readMemoryFrames addr lng, f.2 ≤ 256) ∧
    (readMemoryData dev addr lng).length = lng :=
  ⟨readMemoryFrames_length lng addr h1,
   readMemoryFrames_le lng addr,
   readMemoryData_length dev hdev lng addr⟩

/-- Witness for C5 at length 777 with a device returning `n` zero bytes
for a request of `n`. -/
theorem readMemory_chunking_witness :
    (readMemoryFrames 0 777).length = (777 + 255) / 256 ∧
    (∀ f ∈ readMemoryFrames 0 777, f.2 ≤ 256) ∧
    (readMemoryData (fun _ n => List.replicate n 0) 0 777).length = 777 :=
  readMemory_chunking (fun _ n => List.replicate n 0) 0 777 (by decide) (by decide)
    (fun _ n _ => by simp)

/-! ### Claims C1, C9, C10 — writeMemory chunking, padding and buffer mutation -/

theorem writeMemoryAux_gt (addr : Nat) (data : List Nat) (offs lng : Nat)
    (F : List (Nat × List Nat)) (S : List Nat) (h : 256 < lng)
    (hrec : writeMemoryAux (addr + 256) data (offs + 256) (lng - 256) = (F, S)) :
    writeMemoryAux addr data offs lng =
      ((addr, (data.drop offs).take 256) :: F, S) := by
  rw [writeMemoryAux, if_pos h, hrec]

theorem writeMemoryAux_le (addr : Nat) (data : List Nat) (offs lng : Nat)
    (h : ¬ 256 < lng) :
    writeMemoryAux addr data offs lng =
      ([(addr, ((data ++ List.replicate (256 - lng) 0xFF).drop offs).take 256)],
        data ++ List.replicate (256 - lng) 0xFF) := by
  rw [writeMemoryAux, if_neg h]

/-- Closed form of the `writeMemory` loop: with the caller's invariant
`offs + lng = data.length`, the loop issues one frame per 256-byte step
— the slices `data[offs + 256*i : offs + 256*i + 256]` unmodified for
`i` below `(lng - 1) / 256` — followed by one final frame holding the
remaining bytes padded with `0xFF` to exactly 256 bytes, and leaves the
caller's buffer extended by that same padding. -/
theorem writeMemoryAux_spec (data : List Nat) : ∀ lng addr offs,
    offs + lng = data.length →
    writeMemoryAux addr data offs lng =
      ((List.range ((lng - 1) / 256)).map
          (fun i => (addr + 256 * i, (data.drop (offs + 256 * i)).take 256))
        ++ [(addr + 256 * ((lng - 1) / 256),
             data.drop (offs + 256 * ((lng - 1) / 256))
               ++ List.replicate (256 - (lng - 256 * ((lng - 1) / 256))) 0xFF)],
       data ++ List.replicate (256 - (lng - 256 * ((lng - 1) / 256))) 0xFF) := by
  intro lng
  induction lng using Nat.strong_induction_on with
  | _ lng ih =>
    intro addr offs hinv
    by_cases hl : 256 < lng
    · have hrec := ih (lng - 256) (by omega) (addr + 256) (offs + 256) (by omega)
      rw [writeMemoryAux_gt addr data offs lng _ _ hl hrec]
      have hK : (lng - 1) / 256 = (lng - 256 - 1) / 256 + 1 := by omega
      have hR : lng - 256 - 256 * ((lng - 256 - 1) / 256)
          = lng - 256 * ((lng - 256 - 1) / 256 + 1) := by omega
      rw [hK, List.range_succ_eq_map, List.map_cons, List.map_map]
      simp only [Nat.mul_zero, Nat.add_zero, List.cons_append]
      rw [← hR]
      have haddr : addr + 256 * ((lng - 256 - 1) / 256 + 1)
          = addr + 256 + 256 * ((lng - 256 - 1) / 256) := by omega
      have hoffs2 : offs + 256 * ((lng - 256 - 1) / 256 + 1)
          = offs + 256 + 256 * ((lng - 256 - 1) / 256) := by omega
      rw [haddr, hoffs2]
      have hfun : List.map
            ((fun i => (addr + 256 * i, List.take 256 (List.drop (offs + 256 * i) data)))
              ∘ Nat.succ) (List.range ((lng - 256 - 1) / 256))
          = List.map
              (fun i => (addr + 256 + 256 * i,
                List.take 256 (List.drop (offs + 256 + 256 * i) data)))
              (List.range ((lng - 256 - 1) / 256)) := by
        apply List.map_congr_left
        intro i _
        have e1 : addr + 256 * (i + 1) = addr + 256 + 256 * i := by omega
        have e2 : offs + 256 * (i + 1) = offs + 256 + 256 * i := by omega
        simp only [Function.comp_apply, Nat.succ_eq_add_one, e1, e2]
      rw [hfun]
    · rw [writeMemoryAux_le addr data offs lng hl]
      have hK : (lng - 1) / 256 = 0 := by omega
      have hoffs : offs ≤ data.length := by omega
      have hdrop : (data ++ List.replicate (256 - lng) 0xFF).drop offs
          = data.drop offs ++ List.replicate (256 - lng) 0xFF := by
        rw [List.drop_append_eq_append_drop, Nat.sub_eq_zero_of_le hoffs, List.drop_zero]
      have hlen : (data.drop offs ++ List.replicate (256 - lng) 0xFF).length ≤ 256 := by
        rw [List.length_append, List.length_drop, List.length_replicate]
        omega
      rw [hdrop, List.take_of_length_le hlen]
      simp only [hK, Nat.mul_zero, Nat.add_zero, Nat.sub_zero, List.range_zero,
        List.map_nil, List.nil_append]
/-- `writeMemory` closed form at `offs = 0`. -/
theorem writeMemory_spec (addr : Nat) (data : List Nat) :
    writeMemory addr data =
      ((List.range ((data.length - 1) / 256)).map
          (fun i => (addr + 256 * i, (data.drop (256 * i)).take 256))
        ++ [(addr + 256 * ((data.length - 1) / 256),
             data.drop (256 * ((data.length - 1) / 256))
               ++ List.replicate (256 - (data.length - 256 * ((data.length - 1) / 256))) 0xFF)],
       data ++ List.replicate (256 - (data.length - 256 * ((data.length - 1) / 256))) 0xFF) := by
  have h := writeMemoryAux_spec data data.length addr 0 (by omega)
  simpa [writeMemory, Nat.zero_add] using h

/-- C1: `writeMemory` sends every full 256-byte chunk of the input as an
unmodified slice and pads the final (possibly partial) chunk to exactly
256 bytes with fill value 0xFF — every issued frame carries exactly 256
bytes; for a 300-byte input exactly 2 frames are issued: the first 256
input bytes unpadded, then a 256-byte frame made of the remaining 44
input bytes followed by 0xFF padding, whose last 44 bytes are 0xFF. -/
theorem writeMemory_chunks (addr : Nat) (data : List Nat) :
    (writeMemory addr data).1 =
      (List.range ((data.length - 1) / 256)).map
          (fun i => (addr + 256 * i, (data.drop (256 * i)).take 256))
        ++ [(addr + 256 * ((data.length - 1) / 256),
             data.drop (256 * ((data.length - 1) / 256))
               ++ List.replicate (256 - (data.length - 256 * ((data.length - 1) / 256))) 0xFF)] ∧
    (∀ p ∈ (writeMemory addr data).1, p.2.length = 256) ∧
    (data.length = 300 →
      (writeMemory addr data).1 =
        [(addr, data.take 256),
         (addr + 256, data.drop 256 ++ List.replicate 212 0xFF)] ∧
      (data.drop 256 ++ List.replicate 212 0xFF).drop 212 = List.replicate 44 0xFF) := by
  refine ⟨by rw [writeMemory_spec], ?_, ?_⟩
  · intro p hp
    rw [writeMemory_spec] at hp
    simp only [List.mem_append, List.mem_map, List.mem_range, List.mem_singleton] at hp
    rcases hp with ⟨i, hi, rfl⟩ | rfl
    · simp only [List.length_take, List.length_drop]
      omega
    · simp only [List.length_append, List.length_drop, List.length_replicate]
      omega
  · intro h300
    constructor
    · rw [writeMemory_spec, h300]
      norm_num [List.range_succ]
    · have hx : (data.drop 256).length = 44 := by rw [List.length_drop, h300]
      rw [List.drop_append_eq_append_drop, hx,
        List.drop_eq_nil_of_le (le_of_eq_of_le hx (by norm_num)),
        List.nil_append]
      norm_num [List.drop_replicate]

/-- Witness for C1's 300-byte instance at `data = List.replicate 300 7`. -/
theorem writeMemory_chunks_witness :
    (writeMemory 0 (List.replicate 300 7)).1 =
      [(0, (List.replicate 300 7).take 256),
       (0 + 256, (List.replicate 300 7).drop 256 ++ List.replicate 212 0xFF)] ∧
    ((List.replicate 300 7).drop 256 ++ List.replicate 212 0xFF).drop 212 =
      List.replicate 44 0xFF :=
  (writeMemory_chunks 0 (List.replicate 300 7)).2.2 (by rw [List.length_replicate])

/-- C9: `writeMemory` mutates the caller's buffer in place — when the
input length is not a positive multiple of 256 the buffer ends up
extended with 0xFF bytes to the next positive multiple of 256 (an empty
buffer becomes 256 bytes of 0xFF), and when the input length is a
positive multiple of 256 the buffer is left unchanged. -/
theorem writeMemory_buffer_mutation (addr : Nat) (data : List Nat) :
    (¬(0 < data.length ∧ data.length % 256 = 0) →
      (writeMemory addr data).2 =
        data ++ List.replicate (256 - data.length % 256) 0xFF ∧
      (writeMemory addr data).2.length = 256 * (data.length / 256 + 1)) ∧
    ((0 < data.length ∧ data.length % 256 = 0) →
      (writeMemory addr data).2 = data) := by
  have hsnd : (writeMemory addr data).2 =
      data ++ List.replicate
        (256 - (data.length - 256 * ((data.length - 1) / 256))) 0xFF := by
    rw [writeMemory_spec]
  constructor
  · intro h
    have e : 256 - (data.length - 256 * ((data.length - 1) / 256))
        = 256 - data.length % 256 := by omega
    rw [hsnd, e]
    refine ⟨rfl, ?_⟩
    rw [List.length_append, List.length_replicate]
    omega
  · intro h
    have e : 256 - (data.length - 256 * ((data.length - 1) / 256)) = 0 := by omega
    rw [hsnd, e, List.replicate_zero, List.append_nil]

/-- Witness for C9: a 3-byte buffer is padded to 256 bytes, a 256-byte
buffer is left unchanged. -/
theorem writeMemory_buffer_mutation_witness :
    (writeMemory 0 [1, 2, 3]).2 = [1, 2, 3] ++ List.replicate 253 0xFF ∧
    (writeMemory 0 (List.replicate 256 9)).2 = List.replicate 256 9 :=
  ⟨((writeMemory_buffer_mutation 0 [1, 2, 3]).1 (by norm_num)).1,
   (writeMemory_buffer_mutation 0 (List.replicate 256 9)).2
     ⟨by rw [List.length_replicate]; norm_num, by rw [List.length_replicate]⟩⟩

/-- C10: for an empty input buffer, `writeMemory` still issues exactly
one frame, at the original address, carrying 256 bytes all equal to
0xFF. -/
theorem writeMemory_empty (addr : Nat) :
    writeMemory addr [] =
      ([(addr, List.replicate 256 0xFF)], List.replicate 256 0xFF) := by
  have h := writeMemory_spec addr []
  simp only [List.length_nil, Nat.zero_sub, Nat.zero_div, Nat.mul_zero, Nat.add_zero,
    Nat.sub_zero, Nat.sub_self, List.range_zero, List.map_nil, List.nil_append,
    List.drop_nil] at h
  exact h

/-! ### Claim C6 — global erase encodings -/

/-- C6: with `extended_erase = false` a global erase goes through opcode
0x43 and writes the payload `[0xFF, 0x00]`; with `extended_erase = true`
it goes through opcode 0x44 and writes `[0xFF, 0xFF, 0x00]`; the variant
is selected exclusively by the `extended_erase` flag, so the wire bytes
of a session's global erase are a function of that flag alone. -/
theorem erase_global_encodings (timeout0 : Nat) :
    cmdEraseMemoryTrace false timeout0 none =
      cmdGenericTrace 0x43 ++
        [Ev.wr [0xFF], Ev.wr [0x00], Ev.waitAck "0x43 erasing failed"] ∧
    cmdEraseMemoryTrace true timeout0 none =
      cmdGenericTrace 0x44 ++
        [Ev.wr [0xFF], Ev.wr [0xFF], Ev.wr [0x00],
         Ev.setTimeout 30, Ev.waitAck "0x44 erasing failed", Ev.setTimeout timeout0] ∧
    writtenBytes (cmdEraseMemoryTrace false timeout0 none) = [0x43, 0xBC, 0xFF, 0x00] ∧
    writtenBytes (cmdEraseMemoryTrace true timeout0 none) = [0x44, 0xBB, 0xFF, 0xFF, 0x00] ∧
    (∀ ee : Bool, cmdEraseMemoryTrace ee timeout0 none =
      if ee then cmdExtendedEraseMemoryTrace timeout0 none
      else cmdEraseMemoryTrace false timeout0 none) := by
  refine ⟨rfl, rfl, rfl, rfl, ?_⟩
  intro ee
  cases ee <;> rfl

/-! ### Claim C7 — extended-erase timeout restoration -/

/-- C7 counterexample: starting from a 5-second timeout, a NACKed
mass-erase ACK wait raises with the port timeout left at 30 seconds —
it is not restored to its pre-call value on this exit path. -/
theorem extended_erase_timeout_counterexample :
    cmdExtendedEraseGlobalRun ⟨5⟩ (some 0x1F) = Except.error ⟨30⟩ ∧
    (30 : Nat) ≠ 5 := by
  exact ⟨rfl, by decide⟩

/-- C7 (amended): the extended mass erase raises the port timeout to
30 s for its final ACK wait and writes the saved value back only on the
success path; when the ACK wait fails, the raised exception propagates
with the timeout still set to 30. -/
theorem extended_erase_timeout_restore (sp : Serial) (input : Option Nat) :
    (wait_for_ask input = AckResult.ok →
      cmdExtendedEraseGlobalRun sp input = Except.ok sp) ∧
    (wait_for_ask input ≠ AckResult.ok →
      cmdExtendedEraseGlobalRun sp input = Except.error ⟨30⟩) := by
  constructor
  · intro h
    simp only [cmdExtendedEraseGlobalRun, h]
  · intro h
    cases hw : wait_for_ask input with
    | ok => exact absurd hw h
    | nack => simp only [cmdExtendedEraseGlobalRun, hw]
    | protocolError => simp only [cmdExtendedEraseGlobalRun, hw]

/-- Witness for C7's amended theorem on the success path. -/
theorem extended_erase_timeout_restore_witness :
    cmdExtendedEraseGlobalRun ⟨5⟩ (some 0x79) = Except.ok ⟨5⟩ :=
  (extended_erase_timeout_restore ⟨5⟩ (some 0x79)).1 (by decide)

/-! ### Claim C8 — bootloader entry sequence -/

/-- C8 counterexample: `initChip` does not perform the claimed order
(reset low, 100 ms, boot0, reset high, 500 ms, 0x7F, handshake) — the
boot0 write is not between the two reset transitions. -/
theorem initChip_order_counterexample :
    initChipTrace ≠
      [Ev.rstLine 0, Ev.sleepMs 100, Ev.boot0Line 0, Ev.rstLine 1,
       Ev.sleepMs 500, Ev.wr [0x7F], Ev.waitAck "Syncro"] := by
  decide

/-- C8 (amended): `initChip` sets boot0 to its bootloader-select level
first, then drives reset low, waits 100 ms, drives reset high, waits
500 ms, then writes the single synchronization byte 0x7F and performs
the handshake wait — the boot0 change precedes the whole reset pulse
rather than happening between the reset-low and reset-high
transitions. -/
theorem initChip_order :
    initChipTrace =
      [Ev.boot0Line 0, Ev.rstLine 0, Ev.sleepMs 100, Ev.rstLine 1,
       Ev.sleepMs 500, Ev.wr [0x7F], Ev.waitAck "Syncro"] := rfl

end Stm32
